import Mathlib

/-!
Verification development for the rotating-star geometry library `rot_star.h`
(namespace `rot_star` of the PHOEBE library).  The C++ code is shallowly
embedded over `ℝ`: IEEE doubles are idealised as real numbers, output arrays
are passed and returned as pairs, and the NaN sentinel of
`lagrange_point`/`critical_potential` is modelled by `Option`.

The only entities used from `utils.h` (which is not part of the sources under
examination) are the constants `M_2PI`, `M_4PI` and the cubic solver
`utils::solve_cubic`; those are modelled from the specification, as documented
at their definitions below.
-/

namespace rot_star

/-- Translation of `std::cbrt` as used by the library.  It is only ever applied
to the nonnegative quantity `omega*omega`, where the real cube root agrees with
`Real.rpow` at exponent `1/3`. -/
noncomputable def cbrt (x : ℝ) : ℝ := x ^ ((1:ℝ)/3)

/-- Translation of `rot_star::potential_on_x_axis` (rot_star.h, lines 55-58):
`1/std::abs(x) + omega*omega*x*x/2`. -/
noncomputable def potential_on_x_axis (x omega : ℝ) : ℝ := 1/|x| + omega*omega*x*x/2

/-- Translation of `rot_star::lagrange_point` (rot_star.h, lines 37-41).
The C code returns quiet NaN when `omega == 0`; that sentinel is modelled as
`Option.none`, and the regular value `std::cbrt(omega*omega)` as `Option.some`. -/
noncomputable def lagrange_point (omega : ℝ) : Option ℝ :=
  if omega = 0 then Option.none else Option.some (cbrt (omega*omega))

/-- Translation of `rot_star::critical_potential` (rot_star.h, lines 140-145):
returns `3*std::pow(omega, 2./3)/2`, and NaN (modelled `Option.none`) when
`omega == 0`. -/
noncomputable def critical_potential (omega : ℝ) : Option ℝ :=
  if omega = 0 then Option.none else Option.some (3*omega ^ ((2:ℝ)/3)/2)

/-- The loop body of `rot_star::points_on_x_axis` (rot_star.h, lines 95-99):
for every root `x > 0` of the cubic, both `x` and `-x` are appended to the
output vector. -/
noncomputable def push_pairs (roots : List ℝ) : List ℝ :=
  roots.foldl (fun acc x => if 0 < x then acc ++ [x, -x] else acc) []

/-- The trimming step of `rot_star::points_on_x_axis` (rot_star.h, lines
103-106): if at least two points were collected and `trimming` is set, the
last element (`pop_back`) and then the first element (`erase(begin)`) are
removed. -/
noncomputable def trim_points (points : List ℝ) (trimming : Bool) : List ℝ :=
  if 2 ≤ points.length ∧ trimming = true then points.dropLast.tail else points

/-- Translation of `rot_star::points_on_x_axis` (rot_star.h, lines 80-107).

Modelled from the spec: the call `utils::solve_cubic(a, roots)` with
`a = {1, -Omega0, 0, omega*omega/2}` is not available in the examined sources
(`utils.h` is absent), so the root list produced by the solver is taken here
as the parameter `roots`; the theorems about this function constrain `roots`
by the root property the spec ascribes to the solver ("Solve the cubic for
real roots", all real solutions of the equation obtained "by substituting
`potentialOnAxis(x,omega) = Omega0` and clearing the absolute value for
`x>0`", which is `1 - Omega0*x + (omega*omega/2)*x^3 = 0`).

The source's `omega == 0` branch is the malformed statement
`return 1/Omega0;` — a value return from a `void` function.  As written the
branch returns without writing anything into the output vector, which is
modelled here as the empty output. -/
noncomputable def points_on_x_axis (roots : List ℝ) (Omega0 omega : ℝ)
    (trimming : Bool) : List ℝ :=
  if omega = 0 then []
  else trim_points (List.insertionSort (· ≤ ·) (push_pairs roots)) trimming

/-- Modelled from the spec: the constant `utils::M_4PI` (from the absent
`utils.h`), which the spec identifies as the prefactor `4π`. -/
noncomputable def M_4PI : ℝ := 4*Real.pi

/-- Modelled from the spec: the constant `utils::M_2PI` (from the absent
`utils.h`), which the spec identifies as the prefactor `2π`. -/
noncomputable def M_2PI : ℝ := 2*Real.pi

/-- The coefficient table `a[]` of the area series in `rot_star::area_volume`
(rot_star.h, line 220), exactly the decimal literals of the source. -/
noncomputable def area_coef : ℕ → ℝ
  | 0 => 1
  | 1 => 0.6666666666666666
  | 2 => 1
  | 3 => 1.9428571428571428
  | 4 => 4.314285714285714
  | 5 => 10.398268398268398
  | 6 => 26.48877788877789
  | 7 => 70.22541902541903
  | 8 => 191.8665770657039
  | 9 => 536.7383091809828
  | 10 => 1536.0162254282043
  | _ => 0

/-- The coefficient table `a[]` of the volume series, exactly the decimal
literals of the source.  The identical table appears twice: in
`rot_star::area_volume` (rot_star.h, line 228) and in `rot_star::volume`
(rot_star.h, lines 401-404). -/
noncomputable def vol_coef : ℕ → ℝ
  | 0 => 1
  | 1 => 1
  | 2 => 1.6
  | 3 => 3.142857142857143
  | 4 => 6.933333333333334
  | 5 => 16.484848484848484
  | 6 => 41.302697302697304
  | 7 => 107.56923076923077
  | 8 => 288.6243489583333
  | 9 => 793.03125
  | 10 => 2230.111036424513
  | _ => 0

/-- Horner evaluation `A` of the area series (rot_star.h, line 222):
`a[0] + t*(a[1] + t*(... + t*a[10]))`. -/
noncomputable def area_A (t : ℝ) : ℝ :=
  area_coef 0 + t*(area_coef 1 + t*(area_coef 2 + t*(area_coef 3 + t*(area_coef 4 +
    t*(area_coef 5 + t*(area_coef 6 + t*(area_coef 7 + t*(area_coef 8 +
    t*(area_coef 9 + t*area_coef 10)))))))))

/-- Horner evaluation `V` (resp. `Vol`) of the volume series (rot_star.h,
line 230 and lines 406-408): `a[0] + t*(a[1] + t*(... + t*a[10]))`. -/
noncomputable def vol_V (t : ℝ) : ℝ :=
  vol_coef 0 + t*(vol_coef 1 + t*(vol_coef 2 + t*(vol_coef 3 + t*(vol_coef 4 +
    t*(vol_coef 5 + t*(vol_coef 6 + t*(vol_coef 7 + t*(vol_coef 8 +
    t*(vol_coef 9 + t*vol_coef 10)))))))))

/-- Horner evaluation `dVoldt` of the differentiated volume series
(rot_star.h, lines 414-416):
`a[1] + t*(2*a[2] + t*(3*a[3] + ... + t*10*a[10]))`. -/
noncomputable def vol_dVdt (t : ℝ) : ℝ :=
  vol_coef 1 + t*(2*vol_coef 2 + t*(3*vol_coef 3 + t*(4*vol_coef 4 +
    t*(5*vol_coef 5 + t*(6*vol_coef 6 + t*(7*vol_coef 7 + t*(8*vol_coef 8 +
    t*(9*vol_coef 9 + t*10*vol_coef 10))))))))

/-- The volume series written as the spec states it: the power series
`∑ a_k t^k` with the eleven tabulated coefficients. -/
noncomputable def vol_series_sum (t : ℝ) : ℝ :=
  ∑ k in Finset.range 11, vol_coef k * t ^ k

/-- Term-by-term derivative of the volume series in `t`, as the spec states
it: coefficient `k` of the derivative series is `k` times the coefficient
`a[k]` of the volume series. -/
noncomputable def vol_series_deriv_sum (t : ℝ) : ℝ :=
  ∑ k in Finset.range 11, (k : ℝ) * vol_coef k * t ^ (k - 1)

/-! ### The RK4 integration loop of `rot_star::area_volume`

Per iteration the loop (rot_star.h, lines 261-319) performs the four classical
Runge-Kutta stages for the ODE `ds/dv = 2v/(1 - t*q*sqrt(q))`, `q = v^2 + s`,
accumulating the area integrand `sqrt(s1 + F*F/4)` and the volume integrand
`s1` alongside.  Each stage quantity below is a function of the state `(v, s)`
at the top of the iteration. -/

/-- `F = 2*v1/(1 - t*q*std::sqrt(q))` with `q = v1*v1 + s1`
(rot_star.h, lines 268-269 etc.). -/
noncomputable def avF (t v1 s1 : ℝ) : ℝ :=
  2*v1/(1 - t*(v1*v1 + s1)*Real.sqrt (v1*v1 + s1))

/-- `k[0][0] = dv*F` at stage 1 (`v1 = v`, `s1 = s`). -/
noncomputable def avK0 (t dv v s : ℝ) : ℝ := dv * avF t v s

/-- `s1 = s + k[0][0]/2`, the state fed into stage 2. -/
noncomputable def avS1 (t dv v s : ℝ) : ℝ := s + avK0 t dv v s/2

/-- `k[1][0] = dv*F` at stage 2 (`v1 = v - dv/2`). -/
noncomputable def avK1 (t dv v s : ℝ) : ℝ := dv * avF t (v - dv/2) (avS1 t dv v s)

/-- `s1 = s + k[1][0]/2`, the state fed into stage 3. -/
noncomputable def avS2 (t dv v s : ℝ) : ℝ := s + avK1 t dv v s/2

/-- `k[2][0] = dv*F` at stage 3 (`v1 = v - dv/2` unchanged). -/
noncomputable def avK2 (t dv v s : ℝ) : ℝ := dv * avF t (v - dv/2) (avS2 t dv v s)

/-- `s1 = s + k[2][0]`, the state fed into stage 4. -/
noncomputable def avS3 (t dv v s : ℝ) : ℝ := s + avK2 t dv v s

/-- `k[3][0] = dv*F` at stage 4 (`v1 = v - dv`). -/
noncomputable def avK3 (t dv v s : ℝ) : ℝ := dv * avF t (v - dv) (avS3 t dv v s)

/-- Area integrand `k[0][1] = dv*std::sqrt(s1 + F*F/4)` at stage 1. -/
noncomputable def avKA0 (t dv v s : ℝ) : ℝ :=
  dv * Real.sqrt (s + avF t v s * avF t v s/4)

/-- Area integrand `k[1][1]` at stage 2. -/
noncomputable def avKA1 (t dv v s : ℝ) : ℝ :=
  dv * Real.sqrt (avS1 t dv v s +
    avF t (v - dv/2) (avS1 t dv v s) * avF t (v - dv/2) (avS1 t dv v s)/4)

/-- Area integrand `k[2][1]` at stage 3. -/
noncomputable def avKA2 (t dv v s : ℝ) : ℝ :=
  dv * Real.sqrt (avS2 t dv v s +
    avF t (v - dv/2) (avS2 t dv v s) * avF t (v - dv/2) (avS2 t dv v s)/4)

/-- Area integrand `k[3][1]` at stage 4. -/
noncomputable def avKA3 (t dv v s : ℝ) : ℝ :=
  dv * Real.sqrt (avS3 t dv v s +
    avF t (v - dv) (avS3 t dv v s) * avF t (v - dv) (avS3 t dv v s)/4)

/-- Volume integrand `k[0][2] = dv*s1` at stage 1. -/
noncomputable def avKV0 (t dv v s : ℝ) : ℝ := dv * s

/-- Volume integrand `k[1][2]` at stage 2. -/
noncomputable def avKV1 (t dv v s : ℝ) : ℝ := dv * avS1 t dv v s

/-- Volume integrand `k[2][2]` at stage 3. -/
noncomputable def avKV2 (t dv v s : ℝ) : ℝ := dv * avS2 t dv v s

/-- Volume integrand `k[3][2]` at stage 4. -/
noncomputable def avKV3 (t dv v s : ℝ) : ℝ := dv * avS3 t dv v s

/-- One iteration of the `area_volume` RK4 loop on the state
`(v, s, A, V)` (rot_star.h, lines 261-319): the `s`, `A`, `V` accumulators are
advanced with weights `(1,2,2,1)/6`, the `A` (resp. `V`) update being guarded
by `b_area` (resp. `b_volume`), and `v` is decremented by `dv`. -/
noncomputable def av_step (b_area b_volume : Bool) (t dv : ℝ)
    (st : ℝ × ℝ × ℝ × ℝ) : ℝ × ℝ × ℝ × ℝ :=
  (st.1 - dv,
   st.2.1 + (avK0 t dv st.1 st.2.1 + 2*(avK1 t dv st.1 st.2.1 +
     avK2 t dv st.1 st.2.1) + avK3 t dv st.1 st.2.1)/6,
   if b_area then
     st.2.2.1 + (avKA0 t dv st.1 st.2.1 + 2*(avKA1 t dv st.1 st.2.1 +
       avKA2 t dv st.1 st.2.1) + avKA3 t dv st.1 st.2.1)/6
   else st.2.2.1,
   if b_volume then
     st.2.2.2 + (avKV0 t dv st.1 st.2.1 + 2*(avKV1 t dv st.1 st.2.1 +
       avKV2 t dv st.1 st.2.1) + avKV3 t dv st.1 st.2.1)/6
   else st.2.2.2)

/-- The `for (int i = 0; i < m; ++i)` loop of `area_volume`, iterating
`av_step` `n` times. -/
noncomputable def av_run (b_area b_volume : Bool) (t dv : ℝ) :
    ℕ → ℝ × ℝ × ℝ × ℝ → ℝ × ℝ × ℝ × ℝ
  | 0, st => st
  | n+1, st => av_run b_area b_volume t dv n (av_step b_area b_volume t dv st)

/-! ### The RK4 integration loop of `rot_star::volume`

The loop (rot_star.h, lines 447-509) advances the same `s`-channel (written in
the source through the intermediate `f = q*std::sqrt(q)`), accumulating the
volume integrand `s1` and the derivative integrand `s1 + t*s1*f/(1 - t*f)`. -/

/-- `f = q*std::sqrt(q)` (rot_star.h, lines 455 etc.). -/
noncomputable def volf (q : ℝ) : ℝ := q * Real.sqrt q

/-- `F = 2*v1/(1 - t*f)` with `f = volf (v1*v1 + s1)` (rot_star.h, line 456). -/
noncomputable def volF (t v1 s1 : ℝ) : ℝ := 2*v1/(1 - t*volf (v1*v1 + s1))

/-- `k[0][0] = dv*F` at stage 1. -/
noncomputable def volK0 (t dv v s : ℝ) : ℝ := dv * volF t v s

/-- `s1 = s + k[0][0]/2`. -/
noncomputable def volS1 (t dv v s : ℝ) : ℝ := s + volK0 t dv v s/2

/-- `k[1][0] = dv*F` at stage 2 (`v1 = v - dv/2`). -/
noncomputable def volK1 (t dv v s : ℝ) : ℝ := dv * volF t (v - dv/2) (volS1 t dv v s)

/-- `s1 = s + k[1][0]/2`. -/
noncomputable def volS2 (t dv v s : ℝ) : ℝ := s + volK1 t dv v s/2

/-- `k[2][0] = dv*F` at stage 3 (`v1 = v - dv/2` unchanged). -/
noncomputable def volK2 (t dv v s : ℝ) : ℝ := dv * volF t (v - dv/2) (volS2 t dv v s)

/-- `s1 = s + k[2][0]`. -/
noncomputable def volS3 (t dv v s : ℝ) : ℝ := s + volK2 t dv v s

/-- `k[3][0] = dv*F` at stage 4 (`v1 = v - dv`). -/
noncomputable def volK3 (t dv v s : ℝ) : ℝ := dv * volF t (v - dv) (volS3 t dv v s)

/-- Volume integrand `k[0][1] = dv*s1` at stage 1. -/
noncomputable def volKV0 (t dv v s : ℝ) : ℝ := dv * s

/-- Volume integrand `k[1][1]` at stage 2. -/
noncomputable def volKV1 (t dv v s : ℝ) : ℝ := dv * volS1 t dv v s

/-- Volume integrand `k[2][1]` at stage 3. -/
noncomputable def volKV2 (t dv v s : ℝ) : ℝ := dv * volS2 t dv v s

/-- Volume integrand `k[3][1]` at stage 4. -/
noncomputable def volKV3 (t dv v s : ℝ) : ℝ := dv * volS3 t dv v s

/-- Derivative integrand `k[0][2] = dv*(s1 + t*s1*f/(1 - t*f))` at stage 1. -/
noncomputable def volKD0 (t dv v s : ℝ) : ℝ :=
  dv * (s + t*s*volf (v*v + s)/(1 - t*volf (v*v + s)))

/-- Derivative integrand `k[1][2]` at stage 2. -/
noncomputable def volKD1 (t dv v s : ℝ) : ℝ :=
  dv * (volS1 t dv v s + t*volS1 t dv v s*volf ((v - dv/2)*(v - dv/2) + volS1 t dv v s)/
    (1 - t*volf ((v - dv/2)*(v - dv/2) + volS1 t dv v s)))

/-- Derivative integrand `k[2][2]` at stage 3. -/
noncomputable def volKD2 (t dv v s : ℝ) : ℝ :=
  dv * (volS2 t dv v s + t*volS2 t dv v s*volf ((v - dv/2)*(v - dv/2) + volS2 t dv v s)/
    (1 - t*volf ((v - dv/2)*(v - dv/2) + volS2 t dv v s)))

/-- Derivative integrand `k[3][2]` at stage 4. -/
noncomputable def volKD3 (t dv v s : ℝ) : ℝ :=
  dv * (volS3 t dv v s + t*volS3 t dv v s*volf ((v - dv)*(v - dv) + volS3 t dv v s)/
    (1 - t*volf ((v - dv)*(v - dv) + volS3 t dv v s)))

/-- One iteration of the `volume` RK4 loop on the state `(v, s, Vol,
dVoldOmega)` (rot_star.h, lines 447-509), the `Vol` (resp. `dVoldOmega`)
update being guarded by `b_Vol` (resp. `b_dVoldOmega`). -/
noncomputable def vol_step (b_Vol b_dVoldOmega : Bool) (t dv : ℝ)
    (st : ℝ × ℝ × ℝ × ℝ) : ℝ × ℝ × ℝ × ℝ :=
  (st.1 - dv,
   st.2.1 + (volK0 t dv st.1 st.2.1 + 2*(volK1 t dv st.1 st.2.1 +
     volK2 t dv st.1 st.2.1) + volK3 t dv st.1 st.2.1)/6,
   if b_Vol then
     st.2.2.1 + (volKV0 t dv st.1 st.2.1 + 2*(volKV1 t dv st.1 st.2.1 +
       volKV2 t dv st.1 st.2.1) + volKV3 t dv st.1 st.2.1)/6
   else st.2.2.1,
   if b_dVoldOmega then
     st.2.2.2 + (volKD0 t dv st.1 st.2.1 + 2*(volKD1 t dv st.1 st.2.1 +
       volKD2 t dv st.1 st.2.1) + volKD3 t dv st.1 st.2.1)/6
   else st.2.2.2)

/-- The `for (int i = 0; i < m; ++i)` loop of `volume`, iterating `vol_step`
`n` times. -/
noncomputable def vol_run (b_Vol b_dVoldOmega : Bool) (t dv : ℝ) :
    ℕ → ℝ × ℝ × ℝ × ℝ → ℝ × ℝ × ℝ × ℝ
  | 0, st => st
  | n+1, st => vol_run b_Vol b_dVoldOmega t dv n (vol_step b_Vol b_dVoldOmega t dv st)

/-! ### The two geometry integrators -/

/-- Translation of `rot_star::area_volume` (rot_star.h, lines 172-323).

The output array `av` is passed in and returned: `av[0]` holds the area,
`av[1]` the volume; a slot is written only when the matching bit
(`choice & 1` for area, `choice & 2` for volume) is set.  The branches in
order: mask-empty early return; exact sphere closed form at `omega == 0`;
the `t > 8/27` domain-failure return (the accompanying `std::cerr` message is
tracked separately by `av_regime`); the Horner series for `t < 0.1`; and
otherwise the RK4 integration with `m = 2^16` steps over `v ∈ [0,1]` started
from `v = 1`, `s = A = V = 0`. -/
noncomputable def area_volume (av : ℝ × ℝ) (choice : ℕ) (Omega0 omega : ℝ) :
    ℝ × ℝ :=
  if ¬(choice &&& 1 = 1) ∧ ¬(choice &&& 2 = 2) then av
  else if omega = 0 then
    (if choice &&& 1 = 1 then M_4PI/(Omega0*Omega0) else av.1,
     if choice &&& 2 = 2 then M_4PI/(3*(Omega0*(Omega0*Omega0))) else av.2)
  else if 8/27 < omega*omega/(Omega0*(Omega0*Omega0)) then av
  else if omega*omega/(Omega0*(Omega0*Omega0)) < 0.1 then
    (if choice &&& 1 = 1 then
       M_4PI/(Omega0*Omega0) * area_A (omega*omega/(Omega0*(Omega0*Omega0)))
     else av.1,
     if choice &&& 2 = 2 then
       M_4PI/(Omega0*Omega0) * vol_V (omega*omega/(Omega0*(Omega0*Omega0)))/(3*Omega0)
     else av.2)
  else
    (if choice &&& 1 = 1 then
       M_4PI * (av_run (choice &&& 1 == 1) (choice &&& 2 == 2)
         (omega*omega/(Omega0*(Omega0*Omega0))) (1/2^16) (2^16)
         (1, 0, 0, 0)).2.2.1 / (Omega0*Omega0)
     else av.1,
     if choice &&& 2 = 2 then
       M_2PI * (av_run (choice &&& 1 == 1) (choice &&& 2 == 2)
         (omega*omega/(Omega0*(Omega0*Omega0))) (1/2^16) (2^16)
         (1, 0, 0, 0)).2.2.2 / (Omega0*(Omega0*Omega0))
     else av.2)

/-- Translation of `rot_star::volume` (rot_star.h, lines 354-515).

The output array `res` is passed in and returned: `res[0]` holds the volume,
`res[1]` the derivative `dVolume/dOmega`; a slot is written only when the
matching bit (`choice & 1` for volume, `choice & 2` for the derivative) is
set.  The branch structure mirrors `area_volume`. -/
noncomputable def volume (res : ℝ × ℝ) (choice : ℕ) (Omega0 omega : ℝ) :
    ℝ × ℝ :=
  if ¬(choice &&& 1 = 1) ∧ ¬(choice &&& 2 = 2) then res
  else if omega = 0 then
    (if choice &&& 1 = 1 then M_4PI/(3*(Omega0*(Omega0*Omega0))) else res.1,
     if choice &&& 2 = 2 then -3*(M_4PI/(3*(Omega0*(Omega0*Omega0))))/Omega0 else res.2)
  else if 8/27 < omega*omega/(Omega0*(Omega0*Omega0)) then res
  else if omega*omega/(Omega0*(Omega0*Omega0)) < 0.1 then
    (if choice &&& 1 = 1 then
       M_4PI/(3*(Omega0*(Omega0*Omega0))) * vol_V (omega*omega/(Omega0*(Omega0*Omega0)))
     else res.1,
     if choice &&& 2 = 2 then
       -3*(M_4PI/(3*(Omega0*(Omega0*Omega0))))*
         (vol_V (omega*omega/(Omega0*(Omega0*Omega0))) +
          omega*omega/(Omega0*(Omega0*Omega0)) *
            vol_dVdt (omega*omega/(Omega0*(Omega0*Omega0))))/Omega0
     else res.2)
  else
    (if choice &&& 1 = 1 then
       M_2PI/(Omega0*(Omega0*Omega0)) * (vol_run (choice &&& 1 == 1) (choice &&& 2 == 2)
         (omega*omega/(Omega0*(Omega0*Omega0))) (1/2^16) (2^16)
         (1, 0, 0, 0)).2.2.1
     else res.1,
     if choice &&& 2 = 2 then
       -3*(M_2PI/(Omega0*(Omega0*Omega0)))*(vol_run (choice &&& 1 == 1) (choice &&& 2 == 2)
         (omega*omega/(Omega0*(Omega0*Omega0))) (1/2^16) (2^16)
         (1, 0, 0, 0)).2.2.2/Omega0
     else res.2)

/-- Which of the five control-flow outcomes a call to one of the geometry
integrators takes: mask-empty early return, exact closed form at
`omega == 0`, the `t > 8/27` domain-failure report, the `t < 0.1` series
path, or the RK4 integration path. -/
inductive Regime
  | noOutput
  | closed
  | fail
  | series
  | integ
deriving DecidableEq

/-- The branch taken by `rot_star::area_volume`, replicating its guards in
source order (rot_star.h, lines 183-217): mask test, `omega == 0`,
`t > 8./27`, `t < 0.1`, else integration.  `Regime.fail` is the branch that
prints `"rotstar::area_volume:There is no solution for equator."` to
`std::cerr` and returns. -/
noncomputable def av_regime (choice : ℕ) (Omega0 omega : ℝ) : Regime :=
  if ¬(choice &&& 1 = 1) ∧ ¬(choice &&& 2 = 2) then Regime.noOutput
  else if omega = 0 then Regime.closed
  else if 8/27 < omega*omega/(Omega0*(Omega0*Omega0)) then Regime.fail
  else if omega*omega/(Omega0*(Omega0*Omega0)) < 0.1 then Regime.series
  else Regime.integ

/-- The branch taken by `rot_star::volume`, replicating its guards in source
order (rot_star.h, lines 366-399); they are textually identical to those of
`area_volume`. -/
noncomputable def vol_regime (choice : ℕ) (Omega0 omega : ℝ) : Regime :=
  if ¬(choice &&& 1 = 1) ∧ ¬(choice &&& 2 = 2) then Regime.noOutput
  else if omega = 0 then Regime.closed
  else if 8/27 < omega*omega/(Omega0*(Omega0*Omega0)) then Regime.fail
  else if omega*omega/(Omega0*(Omega0*Omega0)) < 0.1 then Regime.series
  else Regime.integ

/-! ### Claims about regime dispatch and the output mask -/

/-- C1: for every `Omega0 > 0`, when `omega == 0` the geometry operations
return the exact sphere closed forms — `area_volume` yields
`area = 4π/Omega0^2` and `volume = 4π/(3*Omega0^3)`, and `volume` yields
`volume = 4π/(3*Omega0^3)` and `dVolume/dOmega0 = -3*volume/Omega0` — and
both take the closed-form branch, not the series or integration paths. -/
theorem C1_sphere_closed_forms (av res : ℝ × ℝ) (Omega0 : ℝ) (h : 0 < Omega0) :
    area_volume av 3 Omega0 0 = (4*Real.pi/Omega0^2, 4*Real.pi/(3*Omega0^3)) ∧
    volume res 3 Omega0 0 =
      (4*Real.pi/(3*Omega0^3), -3*(4*Real.pi/(3*Omega0^3))/Omega0) ∧
    av_regime 3 Omega0 0 = Regime.closed ∧ vol_regime 3 Omega0 0 = Regime.closed := by
  have hmask : ¬(¬((3:ℕ) &&& 1 = 1) ∧ ¬((3:ℕ) &&& 2 = 2)) := by decide
  have h31 : (3:ℕ) &&& 1 = 1 := by decide
  have h32 : (3:ℕ) &&& 2 = 2 := by decide
  unfold area_volume volume av_regime vol_regime
  simp only [if_neg hmask, eq_self_iff_true, if_true, if_pos h31, if_pos h32,
    M_4PI, Prod.mk.injEq]
  refine ⟨⟨by ring, by ring⟩, ⟨by ring, by ring⟩, trivial, trivial⟩

/-- Witness for C1 at `Omega0 = 1`. -/
theorem C1_sphere_closed_forms_witness :
    (0:ℝ) < 1 ∧
    (area_volume (5, 7) 3 1 0 = (4*Real.pi/1^2, 4*Real.pi/(3*1^3)) ∧
     volume (5, 7) 3 1 0 = (4*Real.pi/(3*1^3), -3*(4*Real.pi/(3*1^3))/1) ∧
     av_regime 3 1 0 = Regime.closed ∧ vol_regime 3 1 0 = Regime.closed) :=
  ⟨by norm_num, C1_sphere_closed_forms (5, 7) (5, 7) 1 (by norm_num)⟩

/-- C2: beyond breakup rotation (`t = omega^2/Omega0^3 > 8/27`) both
integrators return with the caller's output array untouched, and when the
mask requests at least one field the branch taken is the non-fatal
domain-failure report. -/
theorem C2_domain_failure_no_write (av res : ℝ × ℝ) (choice : ℕ)
    (Omega0 omega : ℝ) (h0 : 0 < Omega0) (h1 : 0 ≤ omega)
    (ht : 8/27 < omega*omega/(Omega0*(Omega0*Omega0))) :
    area_volume av choice Omega0 omega = av ∧
    volume res choice Omega0 omega = res ∧
    (choice &&& 1 = 1 ∨ choice &&& 2 = 2 →
      av_regime choice Omega0 omega = Regime.fail ∧
      vol_regime choice Omega0 omega = Regime.fail) := by
  have homega : omega ≠ 0 := by
    rintro rfl
    norm_num at ht
  refine ⟨?_, ?_, fun hor => ?_⟩
  · unfold area_volume
    by_cases hc : ¬(choice &&& 1 = 1) ∧ ¬(choice &&& 2 = 2)
    · rw [if_pos hc]
    · rw [if_neg hc, if_neg homega, if_pos ht]
  · unfold volume
    by_cases hc : ¬(choice &&& 1 = 1) ∧ ¬(choice &&& 2 = 2)
    · rw [if_pos hc]
    · rw [if_neg hc, if_neg homega, if_pos ht]
  · have hmask : ¬(¬(choice &&& 1 = 1) ∧ ¬(choice &&& 2 = 2)) := by tauto
    unfold av_regime vol_regime
    rw [if_neg hmask, if_neg homega, if_pos ht]
    exact ⟨rfl, rfl⟩

/-- Witness for C2 at `Omega0 = 1`, `omega = 1` (so `t = 1 > 8/27`),
with both output bits requested. -/
theorem C2_domain_failure_no_write_witness :
    (0:ℝ) < 1 ∧ (0:ℝ) ≤ 1 ∧ (8:ℝ)/27 < 1*1/(1*(1*1)) ∧
    (area_volume (5, 7) 3 1 1 = (5, 7) ∧ volume (5, 7) 3 1 1 = (5, 7) ∧
     (3 &&& 1 = 1 ∨ 3 &&& 2 = 2 →
       av_regime 3 1 1 = Regime.fail ∧ vol_regime 3 1 1 = Regime.fail)) :=
  ⟨by norm_num, by norm_num, by norm_num,
    C2_domain_failure_no_write (5, 7) (5, 7) 3 1 1 (by norm_num) (by norm_num)
      (by norm_num)⟩

/-- C9: at the critical-rotation boundary `t = omega^2/Omega0^3 = 8/27`
exactly, neither integrator takes the domain-failure branch — the failure
predicate is strict — and both proceed to the integration path (since
`8/27 ≥ 0.1` this is the RK4 path, not the series). -/
theorem C9_boundary_not_fail (choice : ℕ) (Omega0 omega : ℝ)
    (h0 : 0 < Omega0) (h1 : 0 < omega)
    (ht : omega*omega/(Omega0*(Omega0*Omega0)) = 8/27)
    (hc : choice &&& 1 = 1 ∨ choice &&& 2 = 2) :
    av_regime choice Omega0 omega ≠ Regime.fail ∧
    vol_regime choice Omega0 omega ≠ Regime.fail ∧
    av_regime choice Omega0 omega = Regime.integ ∧
    vol_regime choice Omega0 omega = Regime.integ := by
  have hmask : ¬(¬(choice &&& 1 = 1) ∧ ¬(choice &&& 2 = 2)) := by tauto
  have homega : omega ≠ 0 := ne_of_gt h1
  have hnotgt : ¬(8/27 < omega*omega/(Omega0*(Omega0*Omega0))) := by
    rw [ht]
    exact lt_irrefl _
  have hnotlt : ¬(omega*omega/(Omega0*(Omega0*Omega0)) < 0.1) := by
    rw [ht]
    norm_num
  unfold av_regime vol_regime
  rw [if_neg hmask, if_neg homega, if_neg hnotgt, if_neg hnotlt]
  refine ⟨by simp, by simp, rfl, rfl⟩

/-- Witness for C9 at `Omega0 = 3/2`, `omega = 1`: there
`t = 1/(27/8) = 8/27` exactly. -/
theorem C9_boundary_not_fail_witness :
    (0:ℝ) < 3/2 ∧ (0:ℝ) < 1 ∧ (1:ℝ)*1/((3/2)*((3/2)*(3/2))) = 8/27 ∧
    (av_regime 3 (3/2) 1 ≠ Regime.fail ∧ vol_regime 3 (3/2) 1 ≠ Regime.fail ∧
     av_regime 3 (3/2) 1 = Regime.integ ∧ vol_regime 3 (3/2) 1 = Regime.integ) :=
  ⟨by norm_num, by norm_num, by norm_num,
    C9_boundary_not_fail 3 (3/2) 1 (by norm_num) (by norm_num) (by norm_num)
      (by norm_num)⟩

/-- C10: both integrators only ever write the output slots whose bits are set
in the mask — a slot whose bit is clear keeps the caller's prior value — and
with an empty mask the whole output array is returned unchanged. -/
theorem C10_mask_frame (av res : ℝ × ℝ) (choice : ℕ) (Omega0 omega : ℝ) :
    (¬(choice &&& 1 = 1) → (area_volume av choice Omega0 omega).1 = av.1) ∧
    (¬(choice &&& 2 = 2) → (area_volume av choice Omega0 omega).2 = av.2) ∧
    (¬(choice &&& 1 = 1) → (volume res choice Omega0 omega).1 = res.1) ∧
    (¬(choice &&& 2 = 2) → (volume res choice Omega0 omega).2 = res.2) ∧
    (¬(choice &&& 1 = 1) ∧ ¬(choice &&& 2 = 2) →
      area_volume av choice Omega0 omega = av ∧
      volume res choice Omega0 omega = res) := by
  unfold area_volume volume
  refine ⟨?_, ?_, ?_, ?_, ?_⟩ <;> intro h <;> split_ifs <;> simp_all

/-- Witness for C10: with `choice = 1` the second slot of both outputs is
left untouched. -/
theorem C10_mask_frame_witness :
    ¬((1:ℕ) &&& 2 = 2) ∧ (area_volume (5, 7) 1 1 0).2 = 7 ∧
      (volume (5, 7) 1 1 0).2 = 7 :=
  ⟨by decide, (C10_mask_frame (5, 7) (5, 7) 1 1 0).2.1 (by decide),
    (C10_mask_frame (5, 7) (5, 7) 1 1 0).2.2.2.1 (by decide)⟩

/-- C4 (code bug): the `omega == 0` branch of `points_on_x_axis` is the
malformed statement `return 1/Omega0;` in a `void` function; as written it
returns without writing the output vector, so at `Omega0 = 2`, `omega = 0`
the function yields the empty sequence and not the sphere bounding pair
`{-1/Omega0, +1/Omega0} = {-1/2, 1/2}` that the spec intends. -/
theorem C4_omega_zero_branch_eval :
    points_on_x_axis [] 2 0 true = [] ∧
    points_on_x_axis [] 2 0 true ≠ [-(1/2), (1/2 : ℝ)] := by
  have h : points_on_x_axis [] 2 0 true = [] := by
    unfold points_on_x_axis
    norm_num
  refine ⟨h, ?_⟩
  rw [h]
  simp

/-! ### Claims about the axis-intercept solver -/

lemma push_pairs_foldl (rs : List ℝ) (acc : List ℝ) :
    rs.foldl (fun a x => if 0 < x then a ++ [x, -x] else a) acc
      = acc ++ push_pairs rs := by
  induction rs generalizing acc with
  | nil => simp [push_pairs]
  | cons x rs ih =>
      unfold push_pairs
      simp only [List.foldl_cons]
      rw [ih, ih]
      by_cases h : 0 < x <;> simp [h]

lemma push_pairs_cons (x : ℝ) (rs : List ℝ) :
    push_pairs (x :: rs) = (if 0 < x then [x, -x] else []) ++ push_pairs rs := by
  have h1 : push_pairs (x :: rs)
      = rs.foldl (fun a y => if 0 < y then a ++ [y, -y] else a)
          (if 0 < x then [] ++ [x, -x] else []) := by
    simp [push_pairs]
  rw [h1, push_pairs_foldl]
  by_cases h : 0 < x <;> simp [h]

lemma mem_push_pairs {y : ℝ} {rs : List ℝ} :
    y ∈ push_pairs rs ↔ ∃ x, x ∈ rs ∧ 0 < x ∧ (y = x ∨ y = -x) := by
  induction rs with
  | nil => simp [push_pairs]
  | cons x rs ih =>
      rw [push_pairs_cons]
      by_cases h : 0 < x <;> simp [h, ih, List.mem_cons] <;> aesop

lemma count_push_pairs (rs : List ℝ) (y : ℝ) :
    (push_pairs rs).count y = (push_pairs rs).count (-y) := by
  induction rs with
  | nil => simp [push_pairs]
  | cons x rs ih =>
      rw [push_pairs_cons]
      by_cases h : 0 < x
      · simp only [if_pos h, List.count_append, ih, List.count_cons,
          List.count_nil, beq_iff_eq]
        simp only [show ((-x : ℝ) = y) ↔ (x = -y) from neg_eq_iff_eq_neg,
          show ((-x : ℝ) = -y) ↔ (x = y) from neg_inj]
        split_ifs <;> omega
      · simp [h, ih]

lemma sorted_symm_trim (L : List ℝ) (hs : L.Sorted (· ≤ ·))
    (hc : ∀ y : ℝ, L.count y = L.count (-y)) :
    ∀ x ∈ L.dropLast.tail, -x ∈ L.dropLast.tail := by
  rcases L with _ | ⟨a, rs⟩
  · simp
  rcases List.eq_nil_or_concat rs with rfl | ⟨mid, e, hrs⟩
  · simp
  subst hrs
  simp only [List.concat_eq_append] at hs hc ⊢
  have hdrop : (a :: (mid ++ [e])).dropLast.tail = mid := by
    rw [show a :: (mid ++ [e]) = (a :: mid) ++ [e] from by simp,
      List.dropLast_concat]
    rfl
  have hmin : ∀ y ∈ a :: (mid ++ [e]), a ≤ y := by
    intro y hy
    rcases List.mem_cons.mp hy with rfl | hy
    · exact le_refl y
    · exact (List.sorted_cons.mp hs).1 y hy
  have hmax : ∀ y ∈ a :: (mid ++ [e]), y ≤ e := by
    have h2 : List.Sorted (· ≤ ·) ((a :: mid) ++ [e]) := by simpa using hs
    have h3 := (List.pairwise_append.mp h2).2.2
    intro y hy
    have hy2 : y ∈ (a :: mid) ++ [e] := by
      rw [List.cons_append]
      exact hy
    rcases List.mem_append.mp hy2 with hy' | hy'
    · exact h3 y hy' e (by simp)
    · simp only [List.mem_singleton] at hy'
      exact le_of_eq hy'
  have he_mem : e ∈ a :: (mid ++ [e]) := by simp
  have ha_mem : a ∈ a :: (mid ++ [e]) := by simp
  have hneg_e_mem : -e ∈ a :: (mid ++ [e]) := by
    have h1 : 0 < (a :: (mid ++ [e])).count (-e) := by
      rw [← hc e]
      exact List.count_pos_iff.mpr he_mem
    exact List.count_pos_iff.mp h1
  have hneg_a_mem : -a ∈ a :: (mid ++ [e]) := by
    have h1 : 0 < (a :: (mid ++ [e])).count (-a) := by
      rw [← hc a]
      exact List.count_pos_iff.mpr ha_mem
    exact List.count_pos_iff.mp h1
  have hae : a = -e := by
    have h1 : a ≤ -e := hmin _ hneg_e_mem
    have h2 : -a ≤ e := hmax _ hneg_a_mem
    have h3 : -e ≤ a := by linarith
    exact le_antisymm h1 h3
  subst hae
  intro x hx
  rw [hdrop] at hx ⊢
  have hkey : mid.count x = mid.count (-x) := by
    have hcx := hc x
    simp only [List.count_cons, List.count_append, List.count_singleton,
      beq_iff_eq, List.count_nil] at hcx
    simp only [show ((-e : ℝ) = -x) ↔ (e = x) from neg_inj,
      show ((-e : ℝ) = x) ↔ (e = -x) from neg_eq_iff_eq_neg,
      show ((x : ℝ) = -e) ↔ (-e = x) from eq_comm,
      show ((x : ℝ) = e) ↔ (e = x) from eq_comm,
      show ((-x : ℝ) = -e) ↔ (-e = -x) from eq_comm,
      show ((-x : ℝ) = e) ↔ (e = -x) from eq_comm] at hcx
    split_ifs at hcx <;> omega
  have h1 : 0 < mid.count (-x) := by
    rw [← hkey]
    exact List.count_pos_iff.mpr hx
  exact List.count_pos_iff.mp h1

/-- C8: for `Omega0 > 0`, `omega > 0` and either trimming mode, the sequence
returned by `points_on_x_axis` is sorted ascending and is symmetric about
zero: for every `x` in the result, `-x` is also in the result.  The root
list handed over by the cubic solver is arbitrary here — symmetry is forced
by the `±` emission and preserved by sorting and by trimming one element at
each end. -/
theorem C8_sorted_symmetric (roots : List ℝ) (Omega0 omega : ℝ)
    (h0 : 0 < Omega0) (h1 : 0 < omega) (trimming : Bool) :
    List.Sorted (· ≤ ·) (points_on_x_axis roots Omega0 omega trimming) ∧
    ∀ x ∈ points_on_x_axis roots Omega0 omega trimming,
      -x ∈ points_on_x_axis roots Omega0 omega trimming := by
  unfold points_on_x_axis trim_points
  rw [if_neg (ne_of_gt h1)]
  have hsorted : List.Sorted (· ≤ ·)
      (List.insertionSort (· ≤ ·) (push_pairs roots)) :=
    List.sorted_insertionSort _ _
  have hperm := List.perm_insertionSort (· ≤ ·) (push_pairs roots)
  have hcount : ∀ y : ℝ,
      (List.insertionSort (· ≤ ·) (push_pairs roots)).count y
        = (List.insertionSort (· ≤ ·) (push_pairs roots)).count (-y) := by
    intro y
    rw [hperm.count_eq, hperm.count_eq]
    exact count_push_pairs roots y
  split_ifs with hcond
  · have hsub : List.Sublist
        (List.insertionSort (· ≤ ·) (push_pairs roots)).dropLast.tail
        (List.insertionSort (· ≤ ·) (push_pairs roots)) :=
      (List.tail_sublist _).trans (List.dropLast_sublist _)
    exact ⟨List.Pairwise.sublist hsub hsorted, sorted_symm_trim _ hsorted hcount⟩
  · refine ⟨hsorted, ?_⟩
    intro x hx
    rw [hperm.mem_iff] at hx ⊢
    obtain ⟨r, hr, hr0, hy⟩ := mem_push_pairs.mp hx
    apply mem_push_pairs.mpr
    refine ⟨r, hr, hr0, ?_⟩
    rcases hy with rfl | rfl
    · exact Or.inr rfl
    · exact Or.inl (neg_neg r)

/-- Witness for C8 at `roots = [2]`, `Omega0 = 1`, `omega = 1`,
`trimming = false`. -/
theorem C8_sorted_symmetric_witness :
    (0:ℝ) < 1 ∧ (0:ℝ) < 1 ∧
    (List.Sorted (· ≤ ·) (points_on_x_axis [2] 1 1 false) ∧
     ∀ x ∈ points_on_x_axis [2] 1 1 false,
       -x ∈ points_on_x_axis [2] 1 1 false) :=
  ⟨by norm_num, by norm_num,
    C8_sorted_symmetric [2] 1 1 (by norm_num) (by norm_num) false⟩

/-- C7 (amended): with the solver's root list characterised by the cubic
`1 - Omega0*x + (omega^2/2)*x^3 = 0` — the equation actually obtained by
substituting `potential_on_x_axis(x, omega) = Omega0` and clearing the
absolute value for `x > 0`, read off the coefficient array
`{1, -Omega0, 0, omega^2/2}` in ascending order — every element `y` of the
untrimmed result is nonzero and is a genuine intersection of the
equipotential with the axis: `potential_on_x_axis y omega = Omega0`.  (The
cubic displayed by the spec, `x^3 - Omega0*x^2 + omega^2/2 = 0`, is instead
satisfied by the reciprocals `1/y`; see the counterexample.) -/
theorem C7_intercepts_amended (roots : List ℝ) (Omega0 omega : ℝ)
    (h0 : 0 < Omega0) (h1 : 0 < omega)
    (hroots : ∀ x : ℝ, x ∈ roots ↔ 1 - Omega0*x + omega*omega/2*x^3 = 0) :
    ∀ y ∈ points_on_x_axis roots Omega0 omega false,
      y ≠ 0 ∧ potential_on_x_axis y omega = Omega0 := by
  unfold points_on_x_axis trim_points
  rw [if_neg (ne_of_gt h1), if_neg (by simp)]
  intro y hy
  rw [(List.perm_insertionSort _ _).mem_iff] at hy
  obtain ⟨r, hr, hr0, hy⟩ := mem_push_pairs.mp hy
  have hcub := (hroots r).mp hr
  have hrne : r ≠ 0 := ne_of_gt hr0
  have hpot : potential_on_x_axis r omega = Omega0 := by
    unfold potential_on_x_axis
    rw [abs_of_pos hr0]
    field_simp
    linear_combination (2:ℝ) * hcub
  have hpotneg : potential_on_x_axis (-r) omega = potential_on_x_axis r omega := by
    unfold potential_on_x_axis
    rw [abs_neg]
    ring
  rcases hy with rfl | rfl
  · exact ⟨hrne, hpot⟩
  · exact ⟨neg_ne_zero.mpr hrne, hpotneg.trans hpot⟩

lemma roots_list_example (x : ℝ) :
    x ∈ ([1, 2, -3] : List ℝ) ↔ 1 - 7/6*x + 1/3/2*x^3 = 0 := by
  constructor
  · intro hx
    simp only [List.mem_cons, List.mem_singleton, List.not_mem_nil,
      or_false] at hx
    rcases hx with rfl | rfl | rfl <;> norm_num
  · intro hx
    have h6 : (x - 1)*((x - 2)*(x + 3)) = 0 := by linear_combination 6*hx
    rcases mul_eq_zero.mp h6 with h | h
    · have : x = 1 := by linarith
      simp [this]
    · rcases mul_eq_zero.mp h with h' | h'
      · have : x = 2 := by linarith
        simp [this]
      · have : x = -3 := by linarith
        simp [this]

/-- C7 (counterexample): at `Omega0 = 7/6`, `omega = sqrt(1/3)` the solver's
root list (for the cubic of the spec's own derivation) is `[1, 2, -3]`; the
returned point `2` is a genuine axis intersection, yet it does not satisfy
the cubic `x^3 - Omega0*x^2 + omega^2/2 = 0` displayed by the spec, refuting
the claim as stated. -/
theorem C7_intercepts_counterexample :
    (∀ x : ℝ, x ∈ ([1, 2, -3] : List ℝ) ↔
      1 - 7/6*x + Real.sqrt (1/3)*Real.sqrt (1/3)/2*x^3 = 0) ∧
    (2:ℝ) ∈ points_on_x_axis [1, 2, -3] (7/6) (Real.sqrt (1/3)) false ∧
    ¬((2:ℝ)^3 - 7/6*2^2 + Real.sqrt (1/3)*Real.sqrt (1/3)/2 = 0) := by
  have hsq : Real.sqrt (1/3) * Real.sqrt (1/3) = 1/3 :=
    Real.mul_self_sqrt (by norm_num)
  have hpos : (0:ℝ) < Real.sqrt (1/3) := Real.sqrt_pos.mpr (by norm_num)
  refine ⟨?_, ?_, ?_⟩
  · intro x
    rw [hsq]
    exact roots_list_example x
  · unfold points_on_x_axis trim_points
    rw [if_neg (ne_of_gt hpos), if_neg (by simp)]
    rw [(List.perm_insertionSort _ _).mem_iff]
    exact mem_push_pairs.mpr ⟨2, by simp, by norm_num, Or.inl rfl⟩
  · rw [hsq]
    norm_num

/-- Witness for the amended C7 at `Omega0 = 7/6`, `omega = sqrt(1/3)`,
`roots = [1, 2, -3]`. -/
theorem C7_intercepts_amended_witness :
    (0:ℝ) < 7/6 ∧ (0:ℝ) < Real.sqrt (1/3) ∧
    ∀ y ∈ points_on_x_axis [1, 2, -3] (7/6) (Real.sqrt (1/3)) false,
      y ≠ 0 ∧ potential_on_x_axis y (Real.sqrt (1/3)) = 7/6 := by
  have hsq : Real.sqrt (1/3) * Real.sqrt (1/3) = 1/3 :=
    Real.mul_self_sqrt (by norm_num)
  refine ⟨by norm_num, Real.sqrt_pos.mpr (by norm_num), ?_⟩
  apply C7_intercepts_amended [1, 2, -3] (7/6) (Real.sqrt (1/3)) (by norm_num)
    (Real.sqrt_pos.mpr (by norm_num))
  intro x
  rw [hsq]
  exact roots_list_example x

/-! ### Claims about the series regime -/

lemma vol_V_eq_sum (t : ℝ) : vol_V t = vol_series_sum t := by
  unfold vol_V vol_series_sum
  simp only [Finset.sum_range_succ, Finset.sum_range_zero]
  ring

lemma vol_dVdt_eq_sum (t : ℝ) : vol_dVdt t = vol_series_deriv_sum t := by
  unfold vol_dVdt vol_series_deriv_sum
  simp only [Finset.sum_range_succ, Finset.sum_range_zero]
  norm_num
  ring

/-- C6: in the series regime (`0 < t < 0.1`) the derivative slot written by
`volume` is exactly `-3*f*(V(t) + t*V'(t))/Omega0` with `f = 4π/(3*Omega0^3)`,
where `V` is the 11-coefficient volume power series and `V'` its term-by-term
derivative in `t` (coefficient `k` of `V'` being `k` times coefficient `a[k]`
of `V`): the Horner scheme `dVoldt` of the source evaluates precisely that
differentiated series. -/
theorem C6_derivative_series (res : ℝ × ℝ) (choice : ℕ) (Omega0 omega t : ℝ)
    (h0 : 0 < Omega0) (h1 : 0 < omega)
    (htdef : t = omega*omega/(Omega0*(Omega0*Omega0))) (hts : t < 0.1)
    (hc : choice &&& 2 = 2) :
    (volume res choice Omega0 omega).2
      = -3*(4*Real.pi/(3*Omega0^3))*
          (vol_series_sum t + t*vol_series_deriv_sum t)/Omega0 := by
  have hmask : ¬(¬(choice &&& 1 = 1) ∧ ¬(choice &&& 2 = 2)) := by tauto
  have homega : omega ≠ 0 := ne_of_gt h1
  have hnotgt : ¬(8/27 < omega*omega/(Omega0*(Omega0*Omega0))) := by
    rw [← htdef]
    intro hgt
    exact absurd (lt_trans hgt hts) (by norm_num)
  have hlt : omega*omega/(Omega0*(Omega0*Omega0)) < 0.1 := by
    rw [← htdef]
    exact hts
  unfold volume
  rw [if_neg hmask, if_neg homega, if_neg hnotgt, if_pos hlt]
  simp only [if_pos hc, ← htdef, M_4PI, vol_V_eq_sum, vol_dVdt_eq_sum]
  ring

/-- Witness for C6 at `Omega0 = 1`, `omega = 1/10`, `t = 1/100`. -/
theorem C6_derivative_series_witness :
    (0:ℝ) < 1 ∧ (0:ℝ) < 1/10 ∧ (1:ℝ)/100 = (1/10)*(1/10)/(1*(1*1)) ∧
    (1:ℝ)/100 < 0.1 ∧ (2:ℕ) &&& 2 = 2 ∧
    (volume (0, 0) 2 1 (1/10)).2
      = -3*(4*Real.pi/(3*1^3))*
          (vol_series_sum (1/100) + (1/100)*vol_series_deriv_sum (1/100))/1 :=
  ⟨by norm_num, by norm_num, by norm_num, by norm_num, by decide,
    C6_derivative_series (0, 0) 2 1 (1/10) (1/100) (by norm_num) (by norm_num)
      (by norm_num) (by norm_num) (by decide)⟩

/-! ### Agreement of the two integrators on the volume (C5)

In the source the two RK4 loops advance the same `s`-channel, the only
syntactic difference being that `volume` names the intermediate
`f = q*sqrt(q)` before forming `F = 2*v1/(1 - t*f)`, while `area_volume`
writes `F = 2*v1/(1 - t*q*sqrt(q))` directly; the volume integrands
(`dv*s1`) and the Runge-Kutta weights coincide. -/

lemma volF_eq_avF (t v s : ℝ) : volF t v s = avF t v s := by
  unfold volF avF volf
  rw [← mul_assoc]

lemma volK0_eq (t dv v s : ℝ) : volK0 t dv v s = avK0 t dv v s := by
  unfold volK0 avK0
  rw [volF_eq_avF]

lemma volS1_eq (t dv v s : ℝ) : volS1 t dv v s = avS1 t dv v s := by
  unfold volS1 avS1
  rw [volK0_eq]

lemma volK1_eq (t dv v s : ℝ) : volK1 t dv v s = avK1 t dv v s := by
  unfold volK1 avK1
  rw [volS1_eq, volF_eq_avF]

lemma volS2_eq (t dv v s : ℝ) : volS2 t dv v s = avS2 t dv v s := by
  unfold volS2 avS2
  rw [volK1_eq]

lemma volK2_eq (t dv v s : ℝ) : volK2 t dv v s = avK2 t dv v s := by
  unfold volK2 avK2
  rw [volS2_eq, volF_eq_avF]

lemma volS3_eq (t dv v s : ℝ) : volS3 t dv v s = avS3 t dv v s := by
  unfold volS3 avS3
  rw [volK2_eq]

lemma volK3_eq (t dv v s : ℝ) : volK3 t dv v s = avK3 t dv v s := by
  unfold volK3 avK3
  rw [volS3_eq, volF_eq_avF]

lemma volKV0_eq (t dv v s : ℝ) : volKV0 t dv v s = avKV0 t dv v s := rfl

lemma volKV1_eq (t dv v s : ℝ) : volKV1 t dv v s = avKV1 t dv v s := by
  unfold volKV1 avKV1
  rw [volS1_eq]

lemma volKV2_eq (t dv v s : ℝ) : volKV2 t dv v s = avKV2 t dv v s := by
  unfold volKV2 avKV2
  rw [volS2_eq]

lemma volKV3_eq (t dv v s : ℝ) : volKV3 t dv v s = avKV3 t dv v s := by
  unfold volKV3 avKV3
  rw [volS3_eq]

lemma step_volume_corr (b1 b4 : Bool) (t dv v s A V D : ℝ) :
    (av_step b1 true t dv (v, s, A, V)).1 = (vol_step true b4 t dv (v, s, V, D)).1 ∧
    (av_step b1 true t dv (v, s, A, V)).2.1 = (vol_step true b4 t dv (v, s, V, D)).2.1 ∧
    (av_step b1 true t dv (v, s, A, V)).2.2.2 = (vol_step true b4 t dv (v, s, V, D)).2.2.1 := by
  unfold av_step vol_step
  simp [volK0_eq, volK1_eq, volK2_eq, volK3_eq, volKV0_eq, volKV1_eq,
    volKV2_eq, volKV3_eq]

lemma run_volume_corr (b1 b4 : Bool) (t dv : ℝ) :
    ∀ (n : ℕ) (st1 st2 : ℝ × ℝ × ℝ × ℝ),
      st1.1 = st2.1 → st1.2.1 = st2.2.1 → st1.2.2.2 = st2.2.2.1 →
      (av_run b1 true t dv n st1).1 = (vol_run true b4 t dv n st2).1 ∧
      (av_run b1 true t dv n st1).2.1 = (vol_run true b4 t dv n st2).2.1 ∧
      (av_run b1 true t dv n st1).2.2.2 = (vol_run true b4 t dv n st2).2.2.1 := by
  intro n
  induction n with
  | zero => exact fun st1 st2 h1 h2 h3 => ⟨h1, h2, h3⟩
  | succ n ih =>
      intro st1 st2 h1 h2 h3
      obtain ⟨v1, s1, A1, V1⟩ := st1
      obtain ⟨v2, s2, Vo2, D2⟩ := st2
      simp only at h1 h2 h3
      subst h1
      subst h2
      subst h3
      simp only [av_run, vol_run]
      have hstep := step_volume_corr b1 b4 t dv v1 s1 A1 V1 D2
      exact ih _ _ hstep.1 hstep.2.1 hstep.2.2

/-- C5: wherever a solution exists (`t = omega^2/Omega0^3 ≤ 8/27`,
`Omega0 > 0`, `omega ≥ 0`), the volume written by `area_volume` (volume bit
`2` of its mask set) equals the volume written by `volume` (volume bit `1` of
its mask set), in every regime: the closed forms coincide, the series
prefactors `((4π/Omega0^2)/(3*Omega0)` vs `4π/(3*Omega0^3))` are equal, and
the two RK4 loops advance identical `s`- and volume-accumulators. -/
theorem C5_volume_paths_agree (av res : ℝ × ℝ) (c1 c2 : ℕ) (Omega0 omega : ℝ)
    (h0 : 0 < Omega0) (h1 : 0 ≤ omega)
    (ht : omega*omega/(Omega0*(Omega0*Omega0)) ≤ 8/27)
    (hb1 : c1 &&& 2 = 2) (hb2 : c2 &&& 1 = 1) :
    (area_volume av c1 Omega0 omega).2 = (volume res c2 Omega0 omega).1 := by
  have hmask1 : ¬(¬(c1 &&& 1 = 1) ∧ ¬(c1 &&& 2 = 2)) := by tauto
  have hmask2 : ¬(¬(c2 &&& 1 = 1) ∧ ¬(c2 &&& 2 = 2)) := by tauto
  have hO : Omega0 ≠ 0 := ne_of_gt h0
  unfold area_volume volume
  rw [if_neg hmask1, if_neg hmask2]
  by_cases homega : omega = 0
  · rw [if_pos homega, if_pos homega]
    simp only [if_pos hb1, if_pos hb2]
  · rw [if_neg homega, if_neg homega]
    have hnotgt : ¬(8/27 < omega*omega/(Omega0*(Omega0*Omega0))) := not_lt.mpr ht
    rw [if_neg hnotgt, if_neg hnotgt]
    by_cases hlt : omega*omega/(Omega0*(Omega0*Omega0)) < 0.1
    · rw [if_pos hlt, if_pos hlt]
      simp only [if_pos hb1, if_pos hb2, M_4PI]
      ring
    · rw [if_neg hlt, if_neg hlt]
      simp only [if_pos hb1, if_pos hb2]
      have hb1' : (c1 &&& 2 == 2) = true := by simp [hb1]
      have hb2' : (c2 &&& 1 == 1) = true := by simp [hb2]
      rw [hb1', hb2']
      have hrun := run_volume_corr (c1 &&& 1 == 1) (c2 &&& 2 == 2)
        (omega*omega/(Omega0*(Omega0*Omega0))) (1/2^16) (2^16)
        (1, 0, 0, 0) (1, 0, 0, 0) rfl rfl rfl
      rw [hrun.2.2]
      ring

/-- Witness for C5 at `Omega0 = 1`, `omega = 0` (closed-form regime),
masks `2` and `1`. -/
theorem C5_volume_paths_agree_witness :
    (0:ℝ) < 1 ∧ (0:ℝ) ≤ 0 ∧ (0:ℝ)*0/(1*(1*1)) ≤ 8/27 ∧
    (2:ℕ) &&& 2 = 2 ∧ (1:ℕ) &&& 1 = 1 ∧
    (area_volume (5, 7) 2 1 0).2 = (volume (11, 13) 1 1 0).1 :=
  ⟨by norm_num, by norm_num, by norm_num, by decide, by decide,
    C5_volume_paths_agree (5, 7) (11, 13) 2 1 1 0 (by norm_num) (by norm_num)
      (by norm_num) (by decide) (by decide)⟩

/-! ### Claims about the critical potential (C3) -/

lemma cbrt_cube (x : ℝ) (hx : 0 ≤ x) : cbrt x ^ (3:ℕ) = x := by
  unfold cbrt
  rw [← Real.rpow_natCast (x ^ ((1:ℝ)/3)) 3, ← Real.rpow_mul hx]
  norm_num

lemma omega_rpow23 (omega : ℝ) (h : 0 < omega) :
    omega ^ ((2:ℝ)/3) = cbrt (omega*omega) := by
  unfold cbrt
  rw [show omega*omega = omega ^ (2:ℕ) from (pow_two omega).symm,
    ← Real.rpow_natCast omega 2, ← Real.rpow_mul h.le]
  norm_num

/-- C3 (amended): for `omega > 0`, `critical_potential` does equal
`1.5*omega^(2/3)`, and that is the potential at the *reciprocal* of the value
returned by `lagrange_point`: with `lagrange_point omega = cbrt(omega^2) = L`,
the axial critical point — where the axial derivative of the potential
vanishes — is `1/L = omega^(-2/3)`, and
`critical_potential omega = potential_on_x_axis (1/L) omega`.  The identity
claimed with `L` itself holds only at `omega = 1` (see the counterexample). -/
theorem C3_critical_potential_amended (omega L : ℝ) (h1 : 0 < omega)
    (hL : lagrange_point omega = Option.some L) :
    critical_potential omega = Option.some (potential_on_x_axis (1/L) omega) ∧
    HasDerivAt (fun x => potential_on_x_axis x omega) 0 (1/L) ∧
    critical_potential omega = Option.some (3*omega ^ ((2:ℝ)/3)/2) := by
  have homega : omega ≠ 0 := ne_of_gt h1
  have hLval : L = cbrt (omega*omega) := by
    unfold lagrange_point at hL
    rw [if_neg homega] at hL
    exact (Option.some_inj.mp hL).symm
  have hLpos : 0 < L := by
    rw [hLval]
    unfold cbrt
    exact Real.rpow_pos_of_pos (mul_pos h1 h1) _
  have hLne : L ≠ 0 := ne_of_gt hLpos
  have hL3 : L ^ (3:ℕ) = omega*omega := by
    rw [hLval]
    exact cbrt_cube _ (by positivity)
  have h23 : omega ^ ((2:ℝ)/3) = L := by
    rw [omega_rpow23 omega h1, hLval]
  have hpot : potential_on_x_axis (1/L) omega = 3*L/2 := by
    unfold potential_on_x_axis
    rw [abs_of_pos (by positivity : (0:ℝ) < 1/L), show omega*omega = L^(3:ℕ) from hL3.symm]
    field_simp
    ring
  refine ⟨?_, ?_, ?_⟩
  · unfold critical_potential
    rw [if_neg homega, hpot, h23]
  · have hx0 : 0 < 1/L := by positivity
    have hinv := hasDerivAt_inv (ne_of_gt hx0)
    have hsq := ((hasDerivAt_id (1/L)).mul (hasDerivAt_id (1/L))).const_mul
      (omega*omega)
    have hg := hinv.add (hsq.div_const 2)
    have hgoal : HasDerivAt (fun x : ℝ => x⁻¹ + omega*omega*(x*x)/2) 0 (1/L) := by
      convert hg using 1
      rw [show omega*omega = L^(3:ℕ) from hL3.symm]
      field_simp
      ring
    apply hgoal.congr_of_eventuallyEq
    filter_upwards [Ioi_mem_nhds hx0] with x hx
    unfold potential_on_x_axis
    rw [abs_of_pos hx, one_div]
    ring
  · unfold critical_potential
    rw [if_neg homega]

lemma lagrange_point_eight : lagrange_point 8 = Option.some 4 := by
  unfold lagrange_point
  rw [if_neg (by norm_num : (8:ℝ) ≠ 0)]
  congr 1
  unfold cbrt
  rw [show (8*8 : ℝ) = 4 ^ (3:ℝ) from by
    rw [show (3:ℝ) = ((3:ℕ):ℝ) from by norm_num, Real.rpow_natCast]
    norm_num]
  rw [← Real.rpow_mul (by norm_num : (0:ℝ) ≤ 4),
    show (3:ℝ)*((1:ℝ)/3) = 1 from by norm_num, Real.rpow_one]

lemma critical_potential_eight : critical_potential 8 = Option.some 6 := by
  unfold critical_potential
  rw [if_neg (by norm_num : (8:ℝ) ≠ 0)]
  congr 1
  rw [show (8:ℝ) = 2 ^ (3:ℝ) from by
      rw [show (3:ℝ) = ((3:ℕ):ℝ) from by norm_num, Real.rpow_natCast]
      norm_num,
    ← Real.rpow_mul (by norm_num : (0:ℝ) ≤ 2),
    show (3:ℝ)*((2:ℝ)/3) = 2 from by norm_num,
    show (2:ℝ) = ((2:ℕ):ℝ) from by norm_num, Real.rpow_natCast]
  norm_num

/-- C3 (counterexample): at `omega = 8` the code's `lagrange_point` returns
`cbrt(64) = 4` and `critical_potential` returns `6`, but the potential at
`4` is `1/4 + 512 = 2049/4 ≠ 6`: `critical_potential` is *not* the potential
at the point returned by `lagrange_point`. -/
theorem C3_critical_potential_counterexample :
    lagrange_point 8 = Option.some 4 ∧ critical_potential 8 = Option.some 6 ∧
    potential_on_x_axis 4 8 ≠ 6 := by
  refine ⟨lagrange_point_eight, critical_potential_eight, ?_⟩
  unfold potential_on_x_axis
  rw [show |(4:ℝ)| = 4 from abs_of_pos (by norm_num)]
  norm_num

/-- Witness for the amended C3 at `omega = 8`, `L = 4`. -/
theorem C3_critical_potential_amended_witness :
    (0:ℝ) < 8 ∧ lagrange_point 8 = Option.some 4 ∧
    (critical_potential 8 = Option.some (potential_on_x_axis (1/4) 8) ∧
     HasDerivAt (fun x => potential_on_x_axis x 8) 0 (1/4) ∧
     critical_potential 8 = Option.some (3*(8:ℝ) ^ ((2:ℝ)/3)/2)) :=
  ⟨by norm_num, lagrange_point_eight,
    C3_critical_potential_amended 8 4 (by norm_num) lagrange_point_eight⟩

end rot_star
